import Mathlib

/-!
# Verification of the localstack AWS protocol codec and dispatch core

This development gives a shallow embedding of the protocol layer of the
repository (`localstack/aws/protocol/parser.py`,
`localstack/aws/protocol/serializer.py`, `localstack/aws/skeleton.py`) and
proves properties of that embedding.

Conventions of the embedding:
* Python strings are modelled as `List Char` (called `Str` below), so that
  prefix/suffix/slicing reasoning is available through list lemmas.
* Python `dict`s are modelled as association lists.  Where Python dict
  semantics matter (last write wins on duplicate keys, insertion keeps the
  original position of an existing key) dedicated helper functions
  (`pyGet`, `pyInsert`, ...) implement exactly those semantics.
* Fallible Python code (raised exceptions) is modelled with
  `Except PyErr`.  Unbounded `while True:` loops are modelled with an
  explicit iteration bound that is provably larger than the first index at
  which the loop must stop; exceeding the bound yields the distinguished
  error `PyErr.boundExceeded`, which is unreachable for the bounds used.
* External collaborators (the `json` module, `gen_amzn_requestid_long`,
  `dateutil`) are modelled as parameters of the functions that use them.
-/

namespace LocalStack

/-- Python strings, modelled as lists of characters. -/
abbrev Str := List Char

/-- `str.lower()` (restricted to the character-wise lowering that matters for
the ASCII tokens compared by the parser). -/
def pyLower (s : Str) : Str := s.map Char.toLower

/-- One decimal digit as a character (`0 ≤ n ≤ 9`). -/
def digitChar48 (n : Nat) : Char := Char.ofNat (48 + n)

/-- Worker for `natToChars`; the first argument is an iteration bound that is
always sufficient (`n + 1` steps write at most `n + 1` digits). -/
def natToCharsGo : Nat → Nat → Str
  | 0, _ => []
  | f + 1, n =>
    if n < 10 then [digitChar48 n]
    else natToCharsGo f (n / 10) ++ [digitChar48 (n % 10)]

/-- Decimal rendering of a natural number, as used for the `str(i)` index in
the Query-protocol wire keys `prefix.1`, `prefix.2`, .... -/
def natToChars (n : Nat) : Str := natToCharsGo (n + 1) n

/-- Decimal rendering of an integer (`str(n)` for ints). -/
def intToChars (n : Int) : Str :=
  if n < 0 then '-' :: natToChars n.natAbs else natToChars n.natAbs

/-- `int(text)`: parse an optionally signed, non-empty run of decimal digits.
Anything else raises `ValueError` in Python (modelled as `.error`).
(Python also tolerates surrounding whitespace and underscores; those inputs
do not occur in this development and are treated as errors.) -/
def pyInt (s : Str) : Except Unit Int :=
  let digits (l : Str) : Except Unit Nat :=
    if l.isEmpty then .error () else
    l.foldlM (fun acc c => if c.isDigit then .ok (acc * 10 + (c.toNat - 48)) else .error ()) 0
  match s with
  | '-' :: rest => (digits rest).map (fun n => -(n : Int))
  | '+' :: rest => (digits rest).map (fun n => (n : Int))
  | _ => (digits s).map (fun n => (n : Int))

/-- A `ServiceException` (from `localstack.aws.api`): either a
`CommonServiceException` carrying explicit code/status/sender-fault, or a
modeled exception identified by its class name.  `message` models
`str(error)`. -/
inductive ServiceExc where
  | common (code : Str) (message : Str) (statusCode : Nat) (senderFault : Bool)
  | modeled (clsName : Str) (message : Str)
deriving DecidableEq, Repr

/-- `str(error)`. -/
def ServiceExc.message : ServiceExc → Str
  | .common _ m _ _ => m
  | .modeled _ m => m

/-- The errors the embedded Python code can raise.  `boundExceeded` is not a
Python error: it models exceeding the explicit iteration bound used to embed
`while True:` loops, and is unreachable for the bounds chosen here. -/
inductive PyErr where
  | valueError (msg : Str)
  | keyError
  | typeError
  | attributeError
  | indexError
  | unboundLocal
  | stopIteration
  | operationNotFound
  | notImplementedError (msg : Str)
  | serviceException (e : ServiceExc)
  | boundExceeded
deriving DecidableEq, Repr

/-- An `xmlNamespace` serialization entry: optional prefix and a URI. -/
structure XmlNs where
  pfx : Option Str
  uri : Str
deriving DecidableEq, Repr

/-- The serialization metadata of a shape (`shape.serialization` in
botocore).  Only the keys read by the embedded code are modelled. -/
structure Ser where
  name : Option Str
  queryName : Option Str
  flattened : Bool
  location : Option Str
  resultWrapper : Option Str
  xmlAttribute : Bool
  xmlNamespace : Option XmlNs
  payload : Option Str
deriving DecidableEq, Repr

/-- Serialization metadata with no entries set (the common case). -/
def serEmpty : Ser := ⟨none, none, false, none, none, false, none, none⟩

/-- `serEmpty` with `flattened` replaced. -/
def Ser.setFlattened (s : Ser) (b : Bool) : Ser :=
  ⟨s.name, s.queryName, b, s.location, s.resultWrapper, s.xmlAttribute, s.xmlNamespace, s.payload⟩

/-- A shape: a named node of the service's type graph.  The constructors
cover the shape types exercised by the properties under verification
(structure, list, map, string, integer, long, boolean); the remaining scalar
types (float, double, blob, timestamp, character) are not needed by any
claim and are omitted from the graph. -/
inductive Shape where
  | sstructure (name : Str) (ser : Ser) (members : List (Str × Shape))
  | slist (name : Str) (ser : Ser) (member : Shape)
  | smap (name : Str) (ser : Ser) (key : Shape) (value : Shape)
  | sstring (name : Str) (ser : Ser)
  | sinteger (name : Str) (ser : Ser)
  | slong (name : Str) (ser : Ser)
  | sboolean (name : Str) (ser : Ser)
deriving Repr

/-- `shape.name`. -/
def Shape.name : Shape → Str
  | .sstructure n _ _ => n
  | .slist n _ _ => n
  | .smap n _ _ _ => n
  | .sstring n _ => n
  | .sinteger n _ => n
  | .slong n _ => n
  | .sboolean n _ => n

/-- `shape.serialization`. -/
def Shape.ser : Shape → Ser
  | .sstructure _ s _ => s
  | .slist _ s _ => s
  | .smap _ s _ _ => s
  | .sstring _ s => s
  | .sinteger _ s => s
  | .slong _ s => s
  | .sboolean _ s => s

mutual

/-- The nesting depth of a shape graph: a recursion-depth budget for the
embedded recursive walks (each Python recursion level descends into a
strict sub-shape, so the depth dominates the recursion depth). -/
def Shape.depth : Shape → Nat
  | .sstructure _ _ members => 1 + shapeListDepth members
  | .slist _ _ m => 1 + m.depth
  | .smap _ _ k v => 1 + max k.depth v.depth
  | .sstring _ _ => 1
  | .sinteger _ _ => 1
  | .slong _ _ => 1
  | .sboolean _ _ => 1

/-- Maximal depth of the member shapes of a structure. -/
def shapeListDepth : List (Str × Shape) → Nat
  | [] => 0
  | (_, sh) :: rest => max sh.depth (shapeListDepth rest)

end

/-- `isinstance(shape, (MapShape, ListShape, StructureShape))`: the complex
(aggregate) shapes, which the Query parser handles by filtering the node
instead of a direct key lookup. -/
def Shape.isComplex : Shape → Bool
  | .sstructure _ _ _ => true
  | .slist _ _ _ => true
  | .smap _ _ _ _ => true
  | _ => false

/-- Parsed parameter trees (`ParsedParameters`): the plain Python values the
parser produces and the serializer consumes.  `vdict` is a structure result
keyed by member names, `vmap` is a map result keyed by parsed key values,
`vnone` is Python's `None`. -/
inductive Value where
  | vstr (s : Str)
  | vint (n : Int)
  | vbool (b : Bool)
  | vnone
  | vlist (items : List Value)
  | vdict (entries : List (Str × Value))
  | vmap (entries : List (Value × Value))
deriving Repr

/-- Python truthiness of a value (`if params:`). -/
def pyTruthy : Value → Bool
  | .vstr s => !s.isEmpty
  | .vint n => n ≠ 0
  | .vbool b => b
  | .vnone => false
  | .vlist items => !items.isEmpty
  | .vdict entries => !entries.isEmpty
  | .vmap entries => !entries.isEmpty

/-- `str(value)` for the scalar values that reach `six.text_type` in the
serializer.  Aggregates never reach it on the verified paths; they are given
a best-effort placeholder rendering. -/
def pyStr : Value → Str
  | .vstr s => s
  | .vint n => intToChars n
  | .vbool b => if b then "True".data else "False".data
  | .vnone => "None".data
  | .vlist _ => "<list>".data
  | .vdict _ => "<dict>".data
  | .vmap _ => "<dict>".data

/-- Python `==` between the hashable scalar values that can be dict keys.
Python identifies `True` with `1` and `False` with `0` across types. -/
def pyScalarEq : Value → Value → Bool
  | .vstr a, .vstr b => a = b
  | .vint a, .vint b => a = b
  | .vbool a, .vbool b => a = b
  | .vint a, .vbool b => a = (if b then 1 else 0)
  | .vbool a, .vint b => (if a then (1 : Int) else 0) = b
  | .vnone, .vnone => true
  | _, _ => false

/-- Is a value usable as a Python dict key (hashable)?  Lists and dicts are
unhashable and raise `TypeError` when used as keys. -/
def Value.isHashable : Value → Bool
  | .vstr _ => true
  | .vint _ => true
  | .vbool _ => true
  | .vnone => true
  | _ => false

/-- Last-write-wins association-list lookup: the value Python's dict holds
for key `k` after inserting the pairs of `d` in order. -/
def pyGet {α : Type} (d : List (Str × α)) (k : Str) : Option α :=
  d.foldl (fun acc kv => if kv.1 = k then some kv.2 else acc) none

/-- Python dict insertion for string keys: an existing key keeps its
position and gets the new value, a new key is appended. -/
def pyInsert (d : List (Str × Value)) (k : Str) (v : Value) : List (Str × Value) :=
  if d.any (fun kv => kv.1 = k) then d.map (fun kv => if kv.1 = k then (k, v) else kv)
  else d ++ [(k, v)]

/-- Python dict insertion (`result[k] = v`) for parsed map keys: raises
`TypeError` on unhashable keys, otherwise last write wins with the original
position kept. -/
def pyMapInsert (d : List (Value × Value)) (k v : Value) :
    Except PyErr (List (Value × Value)) :=
  if k.isHashable then
    .ok (if d.any (fun kv => pyScalarEq kv.1 k) then
      d.map (fun kv => if pyScalarEq kv.1 k then (k, v) else kv)
    else d ++ [(k, v)])
  else .error .typeError

/-! ## Query / EC2 request parser

Embedding of `QueryRequestParser` and `EC2RequestParser` from
`localstack/aws/protocol/parser.py`.  The node handed around by the Python
code is either the (filtered) form-parameter dict or a plain string; `QVal`
captures both cases. -/

/-- A node of the Query parser: either scalar text or the (already
filtered) flat key/value mapping of the form body. -/
inductive QVal where
  | atom (s : Str)
  | qdict (entries : List (Str × Str))
deriving Repr

/-- `RequestParser._filter_node`: keep the keys starting with `name`, strip
`len(name) + 1` leading characters from them, and return `None` when
nothing matched.  (Python builds a dict, deduplicating stripped keys with
the last write winning; the association list keeps the duplicates and all
lookups are performed with last-write-wins `pyGet`, which is observably the
same.) -/
def filterNode (name : Str) (node : List (Str × Str)) : Option (List (Str × Str)) :=
  let filtered := node.filterMap (fun kv =>
    if name.isPrefixOf kv.1 then some (kv.1.drop (name.length + 1), kv.2) else none)
  if filtered.isEmpty then none else some filtered

/-- `name[0].upper() + name[1:]`.  (On an empty string Python would raise
`IndexError`; serialized-name overrides in service models are non-empty, and
the theorems below only use this on non-empty names.) -/
def capitalizeFirst : Str → Str
  | [] => []
  | c :: cs => c.toUpper :: cs

/-- `QueryRequestParser._get_serialized_name`: the serialization `name`
override if present, else the passed-in default. -/
def queryGetSerializedName (s : Ser) (dflt : Str) : Str := s.name.getD dflt

/-- `EC2RequestParser._get_serialized_name`: `queryName` takes precedence;
a `name` (`locationName`) override is capitalized on input for the ec2
protocol; otherwise the default is returned unchanged. -/
def ec2GetSerializedName (s : Ser) (dflt : Str) : Str :=
  match s.queryName with
  | some q => q
  | none =>
    match s.name with
    | some n => capitalizeFirst n
    | none => dflt

/-- The two protocol variants of the Query parser differ in the class
attribute `FLATTENED_LIST_PREFIX` (`"member."` for Query, `""` for EC2) and
in the `_get_serialized_name` method. -/
structure QueryVariant where
  flattenedListPref : Str
  getSerializedName : Ser → Str → Str

/-- The `query`-protocol parser configuration. -/
def queryVariant : QueryVariant := ⟨"member.".data, queryGetSerializedName⟩

/-- The `ec2`-protocol parser configuration. -/
def ec2Variant : QueryVariant := ⟨[], ec2GetSerializedName⟩

/-- `QueryRequestParser._process_member`, with the recursive `_parse_shape`
call abstracted as `parse`: complex members filter the node to a sub-node,
primitive members look their value up directly; an absent sub-node parses
to `None` without consulting the shape. -/
def processMemberWith (parse : Shape → QVal → Except PyErr (Option Value))
    (memberShape : Shape) (name : Str) (node : List (Str × Str)) :
    Except PyErr (Option Value) :=
  if memberShape.isComplex then
    match filterNode name node with
    | none => .ok none
    | some sub => parse memberShape (.qdict sub)
  else
    match pyGet node name with
    | none => .ok none
    | some s => parse memberShape (.atom s)

/-- The wire name of a structure member in `_parse_structure`: the
serialized name of the member shape, except that a flattened list member
uses the serialized name of the list's member shape. -/
def structMemberWireName (V : QueryVariant) (memberName : Str) (memberShape : Shape) : Str :=
  let base := V.getSerializedName memberShape.ser memberName
  if memberShape.ser.flattened then
    match memberShape with
    | .slist _ _ m => V.getSerializedName m.ser memberName
    | _ => base
  else base

/-- The member loop of `QueryRequestParser._parse_structure`: process each
member in declaration order and keep the non-`None` results keyed by member
name.  (Member names are unique in a well-formed shape, so consing in order
models the Python dict insertions.) -/
def parseStructEntries (V : QueryVariant)
    (parse : Shape → QVal → Except PyErr (Option Value))
    (node : List (Str × Str)) : List (Str × Shape) → Except PyErr (List (Str × Value))
  | [] => .ok []
  | (memberName, memberShape) :: rest => do
    let v ← processMemberWith parse memberShape (structMemberWireName V memberName memberShape) node
    let restEntries ← parseStructEntries V parse node rest
    match v with
    | some vv => .ok ((memberName, vv) :: restEntries)
    | none => .ok restEntries

/-- The `while True:` loop of `_parse_list`: probe ascending 1-based
indices and stop at the first index whose member parses to `None`.  The
first argument of the recursion is the explicit iteration bound (see
`loopBound`). -/
def loopCollect (getAt : Nat → Except PyErr (Option Value)) :
    Nat → Nat → Except PyErr (List (Nat × Value))
  | 0, _ => .error .boundExceeded
  | f + 1, i =>
    match getAt i with
    | .error e => .error e
    | .ok none => .ok []
    | .ok (some v) =>
      match loopCollect getAt f (i + 1) with
      | .error e => .error e
      | .ok rest => .ok ((i, v) :: rest)

/-- The `while True:` loop of `_parse_map`: probe ascending 1-based
indices, at each index process the key and then the value member, and stop
as soon as either is `None`; otherwise insert with Python dict semantics.
Mirrors the source in that the value member is processed (and may raise)
even when the key member was `None`. -/
def mapLoopCollect (getK getV : Nat → Except PyErr (Option Value)) :
    Nat → Nat → List (Value × Value) → Except PyErr (List (Value × Value))
  | 0, _, _ => .error .boundExceeded
  | f + 1, i, acc =>
    match getK i with
    | .error e => .error e
    | .ok k =>
      match getV i with
      | .error e => .error e
      | .ok v =>
        match k, v with
        | some kk, some vv =>
          match pyMapInsert acc kk vv with
          | .error e => .error e
          | .ok acc2 => mapLoopCollect getK getV f (i + 1) acc2
        | _, _ => .ok acc

/-- The length of the longest wire key of a node. -/
def maxKeyLen (n : List (Str × Str)) : Nat :=
  n.foldr (fun kv acc => max kv.1.length acc) 0

/-- Iteration bound for the index loops of `_parse_list` / `_parse_map`.
The loops stop at the first index `i` for which no wire key of the node
starts with (or equals) the probed key name, which contains the decimal
rendering of `i`.  Any `i ≥ 10 ^ (maxKeyLen n + 1)` has at least
`maxKeyLen n + 2` decimal digits, so its probed key name is longer than
every wire key and the loop has certainly stopped; hence this bound is
never exceeded and models the unbounded `while True:` of the source. -/
def loopBound (n : List (Str × Str)) : Nat := 10 ^ (maxKeyLen n + 1)

/-- Stable-by-construction insertion used to model Python's `sorted` on the
`(index, value)` pairs collected by `_parse_list` (indices are pairwise
distinct, so comparing only the index models tuple ordering). -/
def insertSorted (x : Nat × Value) : List (Nat × Value) → List (Nat × Value)
  | [] => [x]
  | y :: ys => if x.1 ≤ y.1 then x :: y :: ys else y :: insertSorted x ys

/-- `sorted(result)` for the collected `(index, value)` pairs. -/
def sortByIndex : List (Nat × Value) → List (Nat × Value)
  | [] => []
  | x :: xs => insertSorted x (sortByIndex xs)

/-- The `location` entry check at the top of `RequestParser._parse_shape`:
the four known locations raise `NotImplementedError`; any other location
value leaves `payload` unassigned in the source, raising
`UnboundLocalError` at the dispatch line.  Either way the parse fails. -/
def locationFail (loc : Str) : Except PyErr (Option Value) :=
  if loc = "header".data ∨ loc = "headers".data ∨
      loc = "querystring".data ∨ loc = "uri".data then
    .error (.notImplementedError ("location parsing".data))
  else .error .unboundLocal

/-- `RequestParser._parse_shape` for the Query/EC2 protocols, dispatching
on the shape type exactly as the `getattr(self, "_parse_%s" % ...)`
dispatch of the source does.  The first argument bounds the nesting depth
of the recursion (the Python recursion is bounded by the depth of the shape
graph); `.error .boundExceeded` models exceeding it. -/
def parseShape (V : QueryVariant) : Nat → Shape → QVal → Except PyErr (Option Value)
  | 0, _, _ => .error .boundExceeded
  | f + 1, shape, node =>
    match shape.ser.location with
    | some loc => locationFail loc
    | none =>
      match shape with
      | .sstructure _ _ members =>
        match node with
        | .atom _ => .error .attributeError
        | .qdict n =>
          match parseStructEntries V (parseShape V f) n members with
          | .error e => .error e
          | .ok entries => .ok (if entries.isEmpty then none else some (.vdict entries))
      | .slist _ ser member =>
        match node with
        | .atom _ => .error .attributeError
        | .qdict n =>
          let keyPref : Str := if ser.flattened then [] else V.flattenedListPref
          match loopCollect
              (fun i => processMemberWith (parseShape V f) member (keyPref ++ natToChars i) n)
              (loopBound n) 1 with
          | .error e => .error e
          | .ok collected =>
            .ok (if collected.isEmpty then none
              else some (.vlist ((sortByIndex collected).map (fun r => r.2))))
      | .smap _ ser keySh valSh =>
        match node with
        | .atom _ => .error .attributeError
        | .qdict n =>
          let keyPref : Str := if ser.flattened then [] else "entry.".data
          let kName := V.getSerializedName keySh.ser "key".data
          let vName := V.getSerializedName valSh.ser "value".data
          match mapLoopCollect
              (fun i => processMemberWith (parseShape V f) keySh
                (keyPref ++ natToChars i ++ ('.' :: kName)) n)
              (fun i => processMemberWith (parseShape V f) valSh
                (keyPref ++ natToChars i ++ ('.' :: vName)) n)
              (loopBound n) 1 [] with
          | .error e => .error e
          | .ok entries => .ok (if entries.isEmpty then none else some (.vmap entries))
      | .sstring _ _ =>
        match node with
        | .atom s => .ok (some (.vstr s))
        | .qdict n => .ok (some (.vdict (n.map (fun kv => (kv.1, Value.vstr kv.2)))))
      | .sinteger _ _ =>
        match node with
        | .atom s =>
          match pyInt s with
          | .ok m => .ok (some (.vint m))
          | .error _ => .error (.valueError s)
        | .qdict _ => .error .typeError
      | .slong _ _ =>
        match node with
        | .atom s =>
          match pyInt s with
          | .ok m => .ok (some (.vint m))
          | .error _ => .error (.valueError s)
        | .qdict _ => .error .typeError
      | .sboolean _ _ =>
        match node with
        | .atom s =>
          let v := pyLower s
          if v = "true".data then .ok (some (.vbool true))
          else if v = "false".data then .ok (some (.vbool false))
          else .error (.valueError s)
        | .qdict _ => .error .attributeError

/-- `_process_member` with the parse recursion instantiated at depth `f`. -/
def processMember (V : QueryVariant) (f : Nat) (memberShape : Shape) (name : Str)
    (node : List (Str × Str)) : Except PyErr (Option Value) :=
  processMemberWith (parseShape V f) memberShape name node

/-! ## JSON-family parser pieces

Embedding of the parts of `BaseJSONRequestParser` that the verified
properties touch.  The `json` module is an external collaborator and is
modelled as a `loads` parameter (`none` models a raised `ValueError`). -/

/-- Plain JSON values, the output type of `json.loads`. -/
inductive JValue where
  | jnull
  | jbool (b : Bool)
  | jnum (n : Int)
  | jstr (s : Str)
  | jarr (items : List JValue)
  | jobj (fields : List (Str × JValue))
deriving Repr

/-- `BaseJSONRequestParser._parse_body_as_json`: an empty (falsy) body
yields `{}`; a body that `json.loads` rejects yields
`{"message": <raw body text>}` instead of raising; otherwise the parsed
JSON is returned.  The function is total: no input raises. -/
def parseBodyAsJson (loads : Str → Option JValue) (body : Str) : JValue :=
  if body.isEmpty then .jobj []
  else
    match loads body with
    | some v => v
    | none => .jobj [("message".data, .jstr body)]

/-- `BaseJSONRequestParser._parse_boolean`: delegates to `_noop_parser`,
returning the node unchanged — JSON bodies already carry real booleans, so
no text is inspected and no input fails. -/
def jsonParseBoolean (node : JValue) : JValue := node

/-! ## Timestamp serialization (`ResponseSerializer._timestamp_iso8601`) -/

/-- The fields of a Python `datetime` read by `strftime` with the two
ISO-8601 format strings. -/
structure PyDatetime where
  year : Nat
  month : Nat
  day : Nat
  hour : Nat
  minute : Nat
  second : Nat
  microsecond : Nat
deriving DecidableEq, Repr

/-- Zero-padded decimal rendering (`%Y`/`%m`/`%d`/`%H`/`%M`/`%S`/`%f`). -/
def padNum (w n : Nat) : Str :=
  List.replicate (w - (natToChars n).length) '0' ++ natToChars n

/-- `value.strftime(ISO8601)` with `ISO8601 = "%Y-%m-%dT%H:%M:%SZ"`
(`boto.utils.ISO8601`): whole-second precision. -/
def strftimeIso8601 (t : PyDatetime) : Str :=
  padNum 4 t.year ++ ('-' :: padNum 2 t.month) ++ ('-' :: padNum 2 t.day) ++
  ('T' :: padNum 2 t.hour) ++ (':' :: padNum 2 t.minute) ++ (':' :: padNum 2 t.second) ++ ['Z']

/-- `value.strftime(ISO8601_MICRO)` with
`ISO8601_MICRO = "%Y-%m-%dT%H:%M:%S.%fZ"` (`botocore.serialize`):
microsecond precision. -/
def strftimeIso8601Micro (t : PyDatetime) : Str :=
  padNum 4 t.year ++ ('-' :: padNum 2 t.month) ++ ('-' :: padNum 2 t.day) ++
  ('T' :: padNum 2 t.hour) ++ (':' :: padNum 2 t.minute) ++ (':' :: padNum 2 t.second) ++
  ('.' :: padNum 6 t.microsecond) ++ ['Z']

/-- `ResponseSerializer._timestamp_iso8601`: pick the microsecond format
exactly when `value.microsecond > 0`. -/
def timestampIso8601 (t : PyDatetime) : Str :=
  if 0 < t.microsecond then strftimeIso8601Micro t else strftimeIso8601 t

/-! ## Response serializer

Embedding of `serializer.py`.  XML documents are modelled as trees
(`XNode`); `ETree.tostring` is an external encoding step that preserves the
tree, so the properties are stated on the trees themselves.
`gen_amzn_requestid_long` (moto) is an external collaborator modelled as a
`requestId` parameter. -/

/-- An XML element: tag, attributes, optional text, children in order. -/
inductive XNode where
  | elem (tag : Str) (attrs : List (Str × Str)) (text : Option Str) (children : List XNode)
deriving Repr

/-- The tag of an element. -/
def XNode.tag : XNode → Str
  | .elem t _ _ _ => t

/-- The children of an element. -/
def XNode.children : XNode → List XNode
  | .elem _ _ _ c => c

/-- The text of an element. -/
def XNode.text : XNode → Option Str
  | .elem _ _ t _ => t

/-- An HTTP response body: raw bytes (initially `b""`), a serialized XML
document, or a serialized JSON document. -/
inductive Body where
  | raw (s : Str)
  | xml (x : XNode)
  | jsonBody (j : JValue)
deriving Repr

/-- The `HttpResponse` TypedDict of `localstack.aws.api`. -/
structure HttpResp where
  headers : List (Str × Str)
  body : Body
  statusCode : Nat
deriving Repr

/-- Python dict assignment `d[k] = v` for string-keyed dicts: an existing
key keeps its position and gets the new value, a new key is appended. -/
def pySet {α : Type} (d : List (Str × α)) (k : Str) (v : α) : List (Str × α) :=
  if d.any (fun kv => kv.1 = k) then d.map (fun kv => if kv.1 = k then (k, v) else kv)
  else d ++ [(k, v)]

/-- The `metadata["error"]` entry of an error shape. -/
structure ErrMeta where
  code : Option Str
  httpStatusCode : Option Nat
  senderFault : Option Bool
deriving DecidableEq, Repr

/-- An error shape as consumed by `serialize_error_to_response`: only its
name and its error metadata are read. -/
structure ErrShape where
  name : Str
  errMeta : ErrMeta
deriving DecidableEq, Repr

/-- The slice of botocore's `OperationModel` read by the embedded code.
`serviceName` is `operation.service_model.service_name`, `xmlNamespace` is
`operation.metadata.get("xmlNamespace")`, `responseCode` is
`operation.http.get("responseCode")`. -/
structure OperationModel where
  name : Str
  serviceName : Str
  inputShape : Option Shape
  outputShape : Option Shape
  errorShapes : List ErrShape
  xmlNamespace : Option Str
  responseCode : Option Nat
  httpChecksumRequired : Bool

/-- The `xmlns` attribute dict built from the operation metadata (both the
`{}` and the `None` spelling of "no attributes" in the source produce an
attribute-free element). -/
def xmlnsAttrs (op : OperationModel) : List (Str × Str) :=
  match op.xmlNamespace with
  | some ns => [("xmlns".data, ns)]
  | none => []

/-- `BaseXMLResponseSerializer._add_error_tags`: a `Code` child, a
`Message` child only for a non-empty `str(error)`, and a
`Fault = "Sender"` child only for a truthy sender fault. -/
def addErrorTags (code : Str) (message : Str) (senderFault : Bool) : List XNode :=
  [.elem "Code".data [] (some code) []] ++
  (if message.isEmpty then [] else [.elem "Message".data [] (some message) []]) ++
  (if senderFault then [.elem "Fault".data [] (some "Sender".data) []] else [])

/-- `BaseXMLResponseSerializer._serialize_error`: an `<ErrorResponse>` root
holding an `<Error>` element and a `<RequestId>` sibling. -/
def baseXmlSerializeErrorBody (code : Str) (error : ServiceExc) (senderFault : Bool)
    (op : OperationModel) (requestId : Str) : Body :=
  .xml (.elem "ErrorResponse".data (xmlnsAttrs op) none
    [.elem "Error".data [] none (addErrorTags code error.message senderFault),
     .elem "RequestId".data [] (some requestId) []])

/-- `RestXMLResponseSerializer._serialize_error`: the special case is
keyed on `operation_model.name == "s3"` — the *operation* name — and
produces a bare `<Error>` root; every other operation name uses the base
`<ErrorResponse>` envelope. -/
def restXmlSerializeErrorBody (code : Str) (error : ServiceExc) (senderFault : Bool)
    (op : OperationModel) (requestId : Str) : Body :=
  if op.name = "s3".data then
    .xml (.elem "Error".data (xmlnsAttrs op) none
      (addErrorTags code error.message senderFault ++
        [.elem "RequestId".data [] (some requestId) []]))
  else baseXmlSerializeErrorBody code error senderFault op requestId

/-- `ResponseSerializer._prepare_additional_traits_in_response`: when the
operation requires an HTTP checksum, `conditionally_calculate_md5` (an
external botocore/moto helper that only adds a `Content-MD5` header) is
applied; it is an external collaborator and its header effect is not
modelled. -/
def basePrepareTraits (r : HttpResp) (_op : OperationModel) (_requestId : Str) : HttpResp := r

/-- `BaseRestResponseSerializer._prepare_additional_traits_in_response`:
base behavior plus the `x-amz-request-id` header. -/
def restPrepareTraits (r : HttpResp) (op : OperationModel) (requestId : Str) : HttpResp :=
  let r0 := basePrepareTraits r op requestId
  ⟨pySet r0.headers "x-amz-request-id".data requestId, r0.body, r0.statusCode⟩

/-- The protocol-specific methods `serialize_error_to_response` dispatches
to (the subclass hooks `_serialize_error` and
`_prepare_additional_traits_in_response`).  All `_serialize_error`
implementations only write the response body, which the hook signature
makes explicit. -/
structure SerializerHooks where
  serializeErrorBody : Str → ServiceExc → Bool → OperationModel → Str → Body
  prepareTraits : HttpResp → OperationModel → Str → HttpResp

/-- The hooks of `QueryResponseSerializer` (error serialization and traits
are inherited from the base XML serializer / base serializer). -/
def queryHooks : SerializerHooks := ⟨baseXmlSerializeErrorBody, basePrepareTraits⟩

/-- The hooks of `RestXMLResponseSerializer`. -/
def restXmlHooks : SerializerHooks := ⟨restXmlSerializeErrorBody, restPrepareTraits⟩

/-- `ResponseSerializer._create_default_response`: empty headers, empty
body, and the status code declared in the operation's http binding
(default 200). -/
def createDefaultResponse (op : OperationModel) : HttpResp :=
  ⟨[], .raw [], op.responseCode.getD 200⟩

/-- `status_code or 400`: Python falsiness makes both a missing (`None`)
and a zero status code fall back to 400. -/
def pyOrStatus : Option Nat → Nat
  | none => 400
  | some n => if n = 0 then 400 else n

/-- `ResponseSerializer.serialize_error_to_response`: a
`CommonServiceException` supplies code/status/sender-fault explicitly; any
other exception resolves the first shape in `operation.error_shapes` whose
name equals the exception's class name (`next(...)` raises `StopIteration`
when there is none), reading its error metadata with the shape name as the
default code.  The status code is `status_code or 400`; the protocol hook
then writes the body and the additional traits are applied. -/
def serializeErrorToResponse (hooks : SerializerHooks) (error : ServiceExc)
    (op : OperationModel) (requestId : Str) : Except PyErr HttpResp :=
  let serialized := createDefaultResponse op
  let finish := fun (code : Str) (statusOpt : Option Nat) (senderFault : Bool) =>
    let status := pyOrStatus statusOpt
    let body := hooks.serializeErrorBody code error senderFault op requestId
    Except.ok (hooks.prepareTraits ⟨serialized.headers, body, status⟩ op requestId)
  match error with
  | .common code _ status senderFault => finish code (some status) senderFault
  | .modeled clsName _ =>
    match op.errorShapes.find? (fun sh => sh.name == clsName) with
    | none => .error .stopIteration
    | some sh =>
      finish (sh.errMeta.code.getD sh.name) sh.errMeta.httpStatusCode
        (sh.errMeta.senderFault.getD false)

/-! ### XML body serialization of result values (Query protocol) -/

/-- `resultWrapper` renaming in `BaseXMLResponseSerializer._serialize`:
despite its name, a truthy `resultWrapper` *renames* the element (an empty
override is falsy and ignored, as in Python). -/
def applyResultWrapper (ser : Ser) (name : Str) : Str :=
  match ser.resultWrapper with
  | some (c :: cs) => c :: cs
  | _ => name

/-- The `xmlns` / `xmlns:prefix` attribute a structure shape's own
`xmlNamespace` serialization entry adds to its element. -/
def structXmlnsAttrs (ser : Ser) : List (Str × Str) :=
  match ser.xmlNamespace with
  | some ns =>
    match ns.pfx with
    | some p => [("xmlns:".data ++ p, ns.uri)]
    | none => [("xmlns".data, ns.uri)]
  | none => []

/-- The member loop of `_serialize_type_structure`, with the recursive
`_serialize` call abstracted as `srl`: iterate the *value's* entries,
resolve each member shape (`shape.members[key]` raises `KeyError`), skip
`None` values, route `xmlAttribute` members into the element's attributes
(their serialization `name` is mandatory; the attribute value is coerced to
text), and serialize the rest as child elements. -/
def serializeStructEntries (srl : Shape → Value → Str → Except PyErr (List XNode))
    (members : List (Str × Shape)) :
    List (Str × Value) → List (Str × Str) → List XNode →
    Except PyErr (List (Str × Str) × List XNode)
  | [], attrs, children => .ok (attrs, children)
  | (key, value) :: rest, attrs, children =>
    match pyGet members key with
    | none => .error .keyError
    | some memberShape =>
      match value with
      | .vnone => serializeStructEntries srl members rest attrs children
      | _ =>
        if memberShape.ser.xmlAttribute then
          match memberShape.ser.name with
          | none => .error .keyError
          | some an => serializeStructEntries srl members rest (pySet attrs an (pyStr value)) children
        else
          match srl memberShape value (memberShape.ser.name.getD key) with
          | .error e => .error e
          | .ok nodes => serializeStructEntries srl members rest attrs (children ++ nodes)

/-- The item loop of `_serialize_type_list` (and the pair loop of
`_serialize_type_map`), concatenating the nodes each item contributes. -/
def serializeSeq (srl : Value → Except PyErr (List XNode)) :
    List Value → Except PyErr (List XNode)
  | [] => .ok []
  | item :: rest => do
    let nodes ← srl item
    let restNodes ← serializeSeq srl rest
    .ok (nodes ++ restNodes)

/-- The entry loop of `_serialize_type_map`: one node per key/value pair,
in map insertion order. -/
def mapEntryNodes
    (entryNode : Value × Value → Str → Except PyErr XNode) (entryName : Str) :
    List (Value × Value) → Except PyErr (List XNode)
  | [] => .ok []
  | kv :: rest => do
    let node ← entryNode kv entryName
    let restNodes ← mapEntryNodes entryNode entryName rest
    .ok (node :: restNodes)

/-- `BaseXMLResponseSerializer._serialize` and its `_serialize_type_*`
handlers for the shape types in the model.  Returns the node list the
Python code would append to the passed parent element (flattened lists and
maps contribute several nodes, everything else exactly one).  The first
argument bounds the recursion depth (the Python recursion is bounded by the
shape graph's depth). -/
def serializeXmlValue : Nat → Shape → Value → Str → Except PyErr (List XNode)
  | 0, _, _, _ => .error .boundExceeded
  | f + 1, shape, params, name0 =>
    let name := applyResultWrapper shape.ser name0
    match shape with
    | .sstructure _ ser members =>
      match params with
      | .vdict entries =>
        match serializeStructEntries (serializeXmlValue f) members entries
            (structXmlnsAttrs ser) [] with
        | .error e => .error e
        | .ok (attrs, children) => .ok [.elem name attrs none children]
      | _ => .error .attributeError
    | .slist _ ser member =>
      match params with
      | .vlist items =>
        if ser.flattened then
          serializeSeq (fun item =>
            serializeXmlValue f member item (queryGetSerializedName member.ser name)) items
        else
          match serializeSeq (fun item =>
              serializeXmlValue f member item (queryGetSerializedName member.ser "member".data))
              items with
          | .error e => .error e
          | .ok children => .ok [.elem name [] none children]
      | _ => .error .typeError
    | .smap _ ser keySh valSh =>
      match params with
      | .vmap entries =>
        let keyName := queryGetSerializedName keySh.ser "key".data
        let valName := queryGetSerializedName valSh.ser "value".data
        let entryNode := fun (kv : Value × Value) (entryName : Str) => do
          let kNodes ← serializeXmlValue f keySh kv.1 keyName
          let vNodes ← serializeXmlValue f valSh kv.2 valName
          Except.ok (XNode.elem entryName [] none (kNodes ++ vNodes))
        if ser.flattened then
          mapEntryNodes entryNode name entries
        else
          match mapEntryNodes entryNode "entry".data entries with
          | .error e => .error e
          | .ok children => .ok [.elem name [] none children]
      | _ => .error .typeError
    | .sboolean _ _ =>
      .ok [.elem name [] (some (if pyTruthy params then "true".data else "false".data)) []]
    | .sstring _ _ => .ok [.elem name [] (some (pyStr params)) []]
    | .sinteger _ _ => .ok [.elem name [] (some (pyStr params)) []]
    | .slong _ _ => .ok [.elem name [] (some (pyStr params)) []]

/-- Recursion-depth budget for serializing against a shape: the shape
depth strictly decreases along every sub-shape, so `depth + 1` dominates
the nesting depth of the Python recursion. -/
def shapeFuel : Option Shape → Nat
  | some sh => sh.depth + 1
  | none => 1

/-- `BaseXMLResponseSerializer._serialize_body_params_to_xml`: no shape
serializes to no element; otherwise the shape serializes under its root
name (its serialization `name`, else the shape name) into a pseudo-root
whose first child (`list(pseudo_root)[0]`, `IndexError` when the shape
contributed no node) is returned. -/
def baseSerializeBodyParamsToXml (params : Value) (shape : Option Shape) :
    Except PyErr (Option XNode) :=
  match shape with
  | none => .ok none
  | some sh =>
    match serializeXmlValue (shapeFuel (some sh)) sh params (sh.ser.name.getD sh.name) with
    | .error e => .error e
    | .ok (first :: _) => .ok (some first)
    | .ok [] => .error .indexError

/-- `QueryResponseSerializer._serialize_body_params_to_xml`: wrap the base
result (if any) in an `<OperationName>Response>` root carrying the
operation's `xmlNamespace`. -/
def querySerializeBodyParamsToXml (params : Value) (shape : Option Shape)
    (op : OperationModel) : Except PyErr XNode := do
  let node ← baseSerializeBodyParamsToXml params shape
  .ok (.elem (op.name ++ "Response".data) (xmlnsAttrs op) none
    (match node with | some n => [n] | none => []))

/-- `QueryResponseSerializer._prepare_additional_traits_in_xml`: append a
`<ResponseMetadata><RequestId>` sibling to the root's children. -/
def queryPrepareTraitsInXml (root : XNode) (requestId : Str) : XNode :=
  match root with
  | .elem t a tx c =>
    .elem t a tx (c ++ [.elem "ResponseMetadata".data [] none
      [.elem "RequestId".data [] (some requestId) []]])

/-- `BaseXMLResponseSerializer._serialize_body_params` with the Query
overrides: build the XML document, apply the Query traits, and encode. -/
def querySerializeBodyParams (params : Value) (shape : Option Shape)
    (op : OperationModel) (requestId : Str) : Except PyErr Body := do
  let root ← querySerializeBodyParamsToXml params shape op
  .ok (.xml (queryPrepareTraitsInXml root requestId))

/-- `BaseXMLResponseSerializer._serialize_payload` (as inherited by the
Query serializer): a string payload member streams the raw parameter value
into the body (default `b""`); any other payload member serializes that
member's value (skipped when absent or `None`, leaving the body empty);
without a payload member the whole parameter dict serializes against the
output shape. -/
def querySerializePayload (parameters : Value) (shape : Option Shape)
    (op : OperationModel) (requestId : Str) : Except PyErr Body :=
  match shape with
  | some (.sstructure sn sser members) =>
    match sser.payload with
    | some p =>
      match pyGet members p with
      | none => .error .keyError
      | some bodyShape =>
        match bodyShape with
        | .sstring _ _ =>
          match parameters with
          | .vdict entries =>
            match (pyGet entries p).getD (.vstr []) with
            | .vstr s => .ok (.raw s)
            | _ => .error .typeError
          | _ => .error .attributeError
        | _ =>
          match parameters with
          | .vdict entries =>
            match pyGet entries p with
            | none => .ok (.raw [])
            | some .vnone => .ok (.raw [])
            | some bodyParams => querySerializeBodyParams bodyParams (some bodyShape) op requestId
          | _ => .error .attributeError
    | none => querySerializeBodyParams parameters (some (.sstructure sn sser members)) op requestId
  | some sh => querySerializeBodyParams parameters (some sh) op requestId
  | none => querySerializeBodyParams parameters none op requestId

/-- `QueryResponseSerializer.serialize_to_response`: default response,
XML payload, additional traits. -/
def querySerializeToResponse (result : Value) (op : OperationModel) (requestId : Str) :
    Except PyErr HttpResp := do
  let serialized := createDefaultResponse op
  let body ← querySerializePayload result op.outputShape op requestId
  .ok (basePrepareTraits ⟨serialized.headers, body, serialized.statusCode⟩ op requestId)

/-! ## Query request parsing entry point (`QueryRequestParser.parse`)

`parse_qs` from `urllib.parse` is embedded byte-for-byte for the ASCII
escapes the bodies in this development use (multi-byte UTF-8 percent
sequences are outside its scope). -/

/-- The value of a hexadecimal digit. -/
def hexVal (c : Char) : Option Nat :=
  if '0' ≤ c ∧ c ≤ '9' then some (c.toNat - 48)
  else if 'a' ≤ c ∧ c ≤ 'f' then some (10 + c.toNat - 97)
  else if 'A' ≤ c ∧ c ≤ 'F' then some (10 + c.toNat - 65)
  else none

/-- `urllib.parse.unquote` restricted to single-byte escapes: decode each
valid `%XX` sequence, leave invalid sequences untouched. -/
def pctDecode : Str → Str
  | [] => []
  | '%' :: h1 :: h2 :: rest =>
    match hexVal h1, hexVal h2 with
    | some a, some b => Char.ofNat (16 * a + b) :: pctDecode rest
    | _, _ => '%' :: pctDecode (h1 :: h2 :: rest)
  | c :: rest => c :: pctDecode rest

/-- The `.replace('+', ' ')` step preceding `unquote` in `parse_qsl`. -/
def plusToSpace (s : Str) : Str := s.map (fun c => if c = '+' then ' ' else c)

/-- Split at the first occurrence of `c`, if any. -/
def splitFirst (c : Char) : Str → Option (Str × Str)
  | [] => none
  | x :: xs =>
    if x = c then some ([], xs)
    else
      match splitFirst c xs with
      | some (a, b) => some (x :: a, b)
      | none => none

/-- Split a string on every occurrence of `c` (the `'&'` split of
`parse_qsl`). -/
def splitAll (c : Char) : Str → List Str
  | [] => [[]]
  | x :: xs =>
    match splitAll c xs with
    | cur :: rest => if x = c then [] :: cur :: rest else (x :: cur) :: rest
    | [] => [[x]]

/-- `urllib.parse.parse_qsl(body, keep_blank_values=True)`: split on `&`,
skip empty fields, split each field at the first `=` (a field without `=`
keeps a blank value), then `+`-to-space and percent-decode names and
values. -/
def parseQsl (s : Str) : List (Str × Str) :=
  (splitAll '&' s).filterMap (fun field =>
    if field.isEmpty then none
    else
      match splitFirst '=' field with
      | some (n, v) => some (pctDecode (plusToSpace n), pctDecode (plusToSpace v))
      | none => some (pctDecode (plusToSpace field), []))

/-- `parse_qs` followed by `{k: _get_first(v)}`: for each key the *first*
value it was given wins, in first-occurrence key order. -/
def firstValues (pairs : List (Str × Str)) : List (Str × Str) :=
  pairs.foldl (fun acc kv => if acc.any (fun e => e.1 = kv.1) then acc else acc ++ [kv]) []

/-- An `HttpRequest` (TypedDict in `localstack.aws.api`); the body bytes
are modelled after `to_str`. -/
structure HttpReq where
  method : Str
  path : Str
  headers : List (Str × Str)
  body : Str

/-- A botocore `ServiceModel`, reduced to the attributes the embedded code
reads. -/
structure ServiceModel where
  serviceName : Str
  operations : List OperationModel

/-- `service.operation_model(name)`; an unknown name raises
(`OperationNotFoundError`). -/
def ServiceModel.operationModel (sm : ServiceModel) (name : Str) :
    Except PyErr OperationModel :=
  match sm.operations.find? (fun op => op.name == name) with
  | some op => .ok op
  | none => .error .operationNotFound

/-- `QueryRequestParser.parse`: form-decode the body, take the first value
per key, look up the operation named by the `Action` field (`KeyError`
when absent), and parse the flat mapping against the operation's input
shape.  (An operation without an input shape would make `_parse_shape`
read `.serialization` off `None` — an `AttributeError`.) -/
def queryParserParse (V : QueryVariant) (service : ServiceModel) (req : HttpReq) :
    Except PyErr (OperationModel × Option Value) := do
  let inst := firstValues (parseQsl req.body)
  let action ←
    match pyGet inst "Action".data with
    | some a => Except.ok a
    | none => Except.error PyErr.keyError
  let op ← service.operationModel action
  match op.inputShape with
  | none => .error .attributeError
  | some sh => do
    let parsed ← parseShape V (sh.depth + 1) sh (.qdict inst)
    .ok (op, parsed)

/-! ## Dispatch core (`localstack/aws/skeleton.py`) -/

/-- The request context handed to `Skeleton.invoke`. -/
structure RequestContext where
  request : HttpReq
  region : Str
  account : Str

/-- The serializer instance a skeleton holds: the two entry points of
`ResponseSerializer`. -/
structure SerializerModel where
  serializeToResponse : Value → OperationModel → Except PyErr HttpResp
  serializeErrorToResp : ServiceExc → OperationModel → Except PyErr HttpResp

/-- The serializer `create_serializer` builds for a `query`-protocol
service, with the externally generated request id as a parameter. -/
def querySerializerModel (requestId : Str) : SerializerModel :=
  ⟨fun v op => querySerializeToResponse v op requestId,
   fun e op => serializeErrorToResponse queryHooks e op requestId⟩

/-- A dispatch-table handler (`ServiceRequestHandler.__call__` bound to the
delegate): it may return a result value, or raise — a `ServiceException`,
a `NotImplementedError`, or any other error. -/
abbrev HandlerFn := RequestContext → Option Value → Except PyErr Value

/-- The state of a `Skeleton`: the service, the dispatch table built at
construction from the delegate's tagged members (the runtime introspection
of `inspect.getmembers` is outside the embedding; the resulting table is
taken as given), and the parser/serializer instances. -/
structure Skeleton where
  service : ServiceModel
  dispatchTable : List (Str × HandlerFn)
  parser : HttpReq → Except PyErr (OperationModel × Option Value)
  serializer : SerializerModel

/-- `botocore.model.ServiceModel.__repr__`, as interpolated by `"%s"` in
the dispatch-gap message. -/
def serviceModelRepr (sm : ServiceModel) : Str :=
  "ServiceModel(".data ++ sm.serviceName ++ ")".data

/-- The message of the `CommonServiceException` synthesized when a handler
raises `NotImplementedError`. -/
def notImplementedMessage (op : OperationModel) : Str :=
  "API action \x27".data ++ op.name ++ "\x27 for service \x27".data ++
    op.serviceName ++ "\x27 not yet implemented".data

/-- `Skeleton.invoke`.  Mirrors the source's control flow exactly: parser
failures propagate; an operation absent from the dispatch table raises
`NotImplementedError` *before* the `try:` block (so nothing catches it and
the call fails); inside the `try:` block a raised `ServiceException` is
serialized as an error response, a raised `NotImplementedError` is
converted into a `CommonServiceException` with code `InternalFailure` and
status 501 and serialized, and any other error propagates. -/
def Skeleton.invoke (sk : Skeleton) (context : RequestContext) : Except PyErr HttpResp :=
  match sk.parser context.request with
  | .error e => .error e
  | .ok (operation, inst) =>
    match pyGet sk.dispatchTable operation.name with
    | none =>
      .error (.notImplementedError
        ("no entry in dispatch table for ".data ++ serviceModelRepr sk.service ++
          ('.' :: operation.name)))
    | some handler =>
      let tryBlock : Except PyErr HttpResp :=
        match handler context inst with
        | .error e => .error e
        | .ok result => sk.serializer.serializeToResponse result operation
      match tryBlock with
      | .ok resp => .ok resp
      | .error (.serviceException e) => sk.serializer.serializeErrorToResp e operation
      | .error (.notImplementedError _) =>
        sk.serializer.serializeErrorToResp
          (.common "InternalFailure".data (notImplementedMessage operation) 501 false) operation
      | .error e => .error e

/-! ## Decoding helpers for stating properties of serialized bodies -/

/-- The first child with the given tag. -/
def findChild (tag : Str) (x : XNode) : Option XNode :=
  x.children.find? (fun c => c.tag == tag)

/-- The root element tag of an XML body. -/
def bodyRootTag : Body → Option Str
  | .xml x => some x.tag
  | _ => none

/-- The decoded error code of an XML error body: the text of
`<Error><Code>` under the root. -/
def xmlErrorCode : Body → Option Str
  | .xml root => (findChild "Error".data root).bind fun e =>
      (findChild "Code".data e).bind XNode.text
  | _ => none

/-- The decoded error message of an XML error body: the text of
`<Error><Message>` under the root. -/
def xmlErrorMessage : Body → Option Str
  | .xml root => (findChild "Error".data root).bind fun e =>
      (findChild "Message".data e).bind XNode.text
  | _ => none

/-- Rename the keys of a flat wire mapping by prepending `p` — the
difference between a non-flattened and a flattened Query list encoding of
the same logical list. -/
def prefixKeys (p : Str) (n : List (Str × Str)) : List (Str × Str) :=
  n.map (fun kv => (p ++ kv.1, kv.2))

/-! ## Concrete fixtures used by the closed instances below -/

/-- Input shape of the fixture operation: one string member `Name`. -/
def fixInput : Shape :=
  .sstructure "TestOpRequest".data serEmpty [("Name".data, .sstring "String".data serEmpty)]

/-- Output shape of the fixture operation: one string member `Echo`. -/
def fixOutput : Shape :=
  .sstructure "TestOpResult".data serEmpty [("Echo".data, .sstring "String".data serEmpty)]

/-- A fixture operation `TestOp` of a Query-protocol service `testsvc`. -/
def fixOp : OperationModel :=
  ⟨"TestOp".data, "testsvc".data, some fixInput, some fixOutput, [], none, none, false⟩

/-- The fixture service holding `fixOp`. -/
def fixService : ServiceModel := ⟨"testsvc".data, [fixOp]⟩

/-- A parseable fixture request naming `TestOp`. -/
def fixReq : HttpReq :=
  ⟨"POST".data, "/".data, [], "Action=TestOp&Name=hello%20world".data⟩

/-- The fixture request context. -/
def fixCtx : RequestContext := ⟨fixReq, "us-east-1".data, "000000000000".data⟩

/-- A skeleton for `fixService` whose dispatch table is empty: `TestOp` is
recognized by the parser but has no registered handler. -/
def fixSkeletonNoHandler : Skeleton :=
  ⟨fixService, [], queryParserParse queryVariant fixService,
    querySerializerModel "REQUESTID".data⟩

/-- A handler that raises `NotImplementedError` (like the generated API
stubs do). -/
def fixNotImplHandler : HandlerFn := fun _ _ => .error (.notImplementedError [])

/-- A skeleton for `fixService` whose dispatch table maps `TestOp` to a
handler that raises `NotImplementedError`. -/
def fixSkeletonStubHandler : Skeleton :=
  ⟨fixService, [("TestOp".data, fixNotImplHandler)], queryParserParse queryVariant fixService,
    querySerializerModel "REQUESTID".data⟩

/-- An operation with one error shape `MyError` whose error metadata
carries `httpStatusCode: 0` (an explicitly present, falsy status). -/
def fixOpStatusZero : OperationModel :=
  ⟨"TestOp".data, "testsvc".data, none, none,
    [⟨"MyError".data, ⟨none, some 0, none⟩⟩], none, none, false⟩

/-- An operation with one error shape `MyError` without `httpStatusCode`
metadata. -/
def fixOpNoStatus : OperationModel :=
  ⟨"TestOp".data, "testsvc".data, none, none,
    [⟨"MyError".data, ⟨none, none, none⟩⟩], none, none, false⟩

/-- A rest-xml operation of the S3 service: the operation is named
`GetObject`, the service is named `s3`. -/
def fixS3GetObject : OperationModel :=
  ⟨"GetObject".data, "s3".data, none, none, [], none, none, false⟩

/-- A hypothetical operation literally named `s3` (no real service has
one); the only way the source's special case can fire. -/
def fixOpNamedS3 : OperationModel :=
  ⟨"s3".data, "other".data, none, none, [], none, none, false⟩

/-! # Theorems

Support lemmas first, then one theorem per claim (with witnesses and
counterexamples where applicable). -/

/-- `ser` of a structure shape. -/
theorem ser_sstructure (n : Str) (s : Ser) (members : List (Str × Shape)) :
    (Shape.sstructure n s members).ser = s := rfl

/-- `ser` of a list shape. -/
theorem ser_slist (n : Str) (s : Ser) (m : Shape) : (Shape.slist n s m).ser = s := rfl

/-- `ser` of a map shape. -/
theorem ser_smap (n : Str) (s : Ser) (k v : Shape) : (Shape.smap n s k v).ser = s := rfl

/-- `ser` of a string shape. -/
theorem ser_sstring (n : Str) (s : Ser) : (Shape.sstring n s).ser = s := rfl

/-- `ser` of a boolean shape. -/
theorem ser_sboolean (n : Str) (s : Ser) : (Shape.sboolean n s).ser = s := rfl

/-- Decimal digits are not the dot character. -/
theorem digitChar48_ne_dot (k : Nat) (hk : k < 10) : digitChar48 k ≠ '.' := by
  interval_cases k <;> decide

/-- No dot appears in the bounded decimal rendering. -/
theorem dot_not_mem_natToCharsGo (fuel n : Nat) : '.' ∉ natToCharsGo fuel n := by
  induction fuel generalizing n with
  | zero => simp [natToCharsGo]
  | succ f ih =>
    simp only [natToCharsGo]
    split
    · next h =>
      intro hmem
      rcases List.mem_singleton.mp hmem with h'
      exact digitChar48_ne_dot n h h'.symm
    · next h =>
      intro hmem
      rcases List.mem_append.mp hmem with h1 | h2
      · exact ih (n / 10) h1
      · exact digitChar48_ne_dot (n % 10) (Nat.mod_lt _ (by norm_num))
          (List.mem_singleton.mp h2).symm

/-- No dot appears in a decimal rendering. -/
theorem dot_not_mem_natToChars (n : Nat) : '.' ∉ natToChars n :=
  dot_not_mem_natToCharsGo (n + 1) n

/-- No dot appears in a zero-padded decimal rendering. -/
theorem dot_not_mem_padNum (w n : Nat) : '.' ∉ padNum w n := by
  intro hmem
  rcases List.mem_append.mp hmem with h1 | h2
  · exact absurd ((List.eq_of_mem_replicate h1)) (by decide)
  · exact dot_not_mem_natToChars n h2

/-- Non-membership distributes over append. -/
theorem dot_not_mem_append {a b : Str} (ha : '.' ∉ a) (hb : '.' ∉ b) : '.' ∉ a ++ b := by
  intro h
  rcases List.mem_append.mp h with h | h
  exacts [ha h, hb h]

/-- Non-membership distributes over cons. -/
theorem dot_not_mem_cons {c : Char} {l : Str} (hc : '.' ≠ c) (hl : '.' ∉ l) :
    '.' ∉ c :: l := by
  intro h
  rcases List.mem_cons.mp h with h | h
  exacts [hc h, hl h]

/-- C9. For the JSON-family parsers, the initial body parse is total: an
empty body yields the empty object, and a non-empty body that `json.loads`
rejects yields `{"message": <raw body text>}` instead of raising. -/
theorem claim_C9 (loads : Str → Option JValue) (body : Str) :
    (body = [] → parseBodyAsJson loads body = .jobj []) ∧
    (body ≠ [] → loads body = none →
      parseBodyAsJson loads body = .jobj [("message".data, .jstr body)]) := by
  constructor
  · intro h; subst h; rfl
  · intro h hl
    cases body with
    | nil => exact absurd rfl h
    | cons c cs => simp [parseBodyAsJson, hl]

/-- Witness for C9 at a concrete non-JSON body and the empty body. -/
theorem claim_C9_witness :
    parseBodyAsJson (fun _ => none) [] = .jobj [] ∧
    parseBodyAsJson (fun _ => none) "x".data =
      .jobj [("message".data, .jstr "x".data)] :=
  ⟨(claim_C9 (fun _ => none) []).1 rfl,
   (claim_C9 (fun _ => none) "x".data).2 (by decide) rfl⟩

/-- C6. A timestamp serialized in iso8601 format carries the microsecond
field (as the `.NNNNNN` suffix before the trailing `Z`) exactly when the
value's microseconds are nonzero; at zero microseconds the whole-second
format is used and the output contains no dot at all. -/
theorem claim_C6 (t : PyDatetime) :
    (0 < t.microsecond →
      timestampIso8601 t = strftimeIso8601Micro t ∧
      ('.' :: padNum 6 t.microsecond ++ ['Z']) <:+ timestampIso8601 t) ∧
    (t.microsecond = 0 →
      timestampIso8601 t = strftimeIso8601 t ∧ '.' ∉ timestampIso8601 t) := by
  constructor
  · intro h
    have he : timestampIso8601 t = strftimeIso8601Micro t := by
      simp [timestampIso8601, h]
    refine ⟨he, ?_⟩
    rw [he]
    unfold strftimeIso8601Micro
    rw [List.append_assoc]
    exact List.suffix_append _ _
  · intro h
    have he : timestampIso8601 t = strftimeIso8601 t := by
      simp [timestampIso8601, h]
    refine ⟨he, ?_⟩
    rw [he]
    unfold strftimeIso8601
    exact dot_not_mem_append
      (dot_not_mem_append
        (dot_not_mem_append
          (dot_not_mem_append
            (dot_not_mem_append
              (dot_not_mem_append (dot_not_mem_padNum _ _)
                (dot_not_mem_cons (by decide) (dot_not_mem_padNum _ _)))
              (dot_not_mem_cons (by decide) (dot_not_mem_padNum _ _)))
            (dot_not_mem_cons (by decide) (dot_not_mem_padNum _ _)))
          (dot_not_mem_cons (by decide) (dot_not_mem_padNum _ _)))
        (dot_not_mem_cons (by decide) (dot_not_mem_padNum _ _)))
      (by decide)

/-- Witness for C6 at concrete datetimes with and without microseconds. -/
theorem claim_C6_witness :
    (timestampIso8601 ⟨2021, 3, 4, 5, 6, 7, 123456⟩ =
        strftimeIso8601Micro ⟨2021, 3, 4, 5, 6, 7, 123456⟩ ∧
      ('.' :: padNum 6 123456 ++ ['Z']) <:+ timestampIso8601 ⟨2021, 3, 4, 5, 6, 7, 123456⟩) ∧
    (timestampIso8601 ⟨2021, 3, 4, 5, 6, 7, 0⟩ = strftimeIso8601 ⟨2021, 3, 4, 5, 6, 7, 0⟩ ∧
      '.' ∉ timestampIso8601 ⟨2021, 3, 4, 5, 6, 7, 0⟩) :=
  ⟨(claim_C6 ⟨2021, 3, 4, 5, 6, 7, 123456⟩).1 (by decide),
   (claim_C6 ⟨2021, 3, 4, 5, 6, 7, 0⟩).2 rfl⟩

/-- C7, counterexample.  The claim predicts that a member with neither
`queryName` nor `name` override gets its first letter capitalized; the
source's `else` branch returns the default name unchanged (it is the
`name` override that gets capitalized).  At the unoverridden name `foo`
the code yields `foo`, while the capitalization the claim predicts is
`Foo`. -/
theorem claim_C7_counterexample :
    ec2GetSerializedName serEmpty "foo".data = "foo".data ∧
    capitalizeFirst "foo".data = "Foo".data := by
  exact ⟨rfl, by decide⟩

/-- C7, amended.  The EC2 wire-name resolution consults `queryName` first;
a `name` override (with no `queryName`) is returned with its first letter
capitalized; a member with neither override keeps its member name
unchanged. -/
theorem claim_C7_amended (s : Ser) (dflt nm : Str) :
    (∀ q, s.queryName = some q → ec2GetSerializedName s dflt = q) ∧
    (s.queryName = none → s.name = some nm → ec2GetSerializedName s dflt = capitalizeFirst nm) ∧
    (s.queryName = none → s.name = none → ec2GetSerializedName s dflt = dflt) := by
  unfold ec2GetSerializedName
  refine ⟨?_, ?_, ?_⟩
  · intro q h; rw [h]
  · intro hq hn; rw [hq, hn]
  · intro hq hn; rw [hq, hn]

/-- Witness for C7 at each of the three override situations. -/
theorem claim_C7_witness :
    ec2GetSerializedName ⟨none, some "qn".data, false, none, none, false, none, none⟩
      "m".data = "qn".data ∧
    ec2GetSerializedName ⟨some "loc".data, none, false, none, none, false, none, none⟩
      "m".data = capitalizeFirst "loc".data ∧
    ec2GetSerializedName serEmpty "m".data = "m".data :=
  ⟨(claim_C7_amended _ "m".data "x".data).1 "qn".data rfl,
   (claim_C7_amended _ "m".data "loc".data).2.1 rfl rfl,
   (claim_C7_amended serEmpty "m".data "x".data).2.2 rfl rfl⟩

/-- C8.  The rest-xml error special case is keyed on
`operation_model.name == "s3"` — the *operation* name, not the service
name — contradicting the code's own comment ("S3 errors look differently
than other service's errors"): an error of the actual S3 service (service
name `s3`, operation `GetObject`) gets the generic `<ErrorResponse>`
envelope, while only a hypothetical operation literally named `s3` would
get the bare `<Error>` root. -/
theorem claim_C8_code_bug :
    bodyRootTag (restXmlSerializeErrorBody "NoSuchKey".data
      (.modeled "NoSuchKey".data "The specified key does not exist".data) false
      fixS3GetObject "REQUESTID".data) = some "ErrorResponse".data ∧
    bodyRootTag (restXmlSerializeErrorBody "SomeError".data
      (.modeled "SomeError".data "msg".data) false
      fixOpNamedS3 "REQUESTID".data) = some "Error".data :=
  ⟨rfl, rfl⟩

/-- C3, counterexample.  `status_code or 400` uses Python falsiness, so an
error shape whose metadata explicitly carries `httpStatusCode: 0`
serializes with status 400, not with the present value 0 — refuting the
claim's "when httpStatusCode is present its value is used". -/
theorem claim_C3_counterexample :
    (serializeErrorToResponse queryHooks (.modeled "MyError".data "msg".data)
      fixOpStatusZero "REQUESTID".data).map HttpResp.statusCode = .ok 400 := rfl

/-- C3, amended.  For every serializer whose trait hook preserves the
status code (all protocol serializers do), a modeled exception matching an
error shape without `httpStatusCode` metadata serializes with status
exactly 400, and a present *nonzero* `httpStatusCode` is used as-is (a
present 0 falls back to 400 by Python falsiness). -/
theorem claim_C3_amended (hooks : SerializerHooks)
    (hst : ∀ r op rid, (hooks.prepareTraits r op rid).statusCode = r.statusCode)
    (op : OperationModel) (clsName msg : Str) (sh : ErrShape) (rid : Str)
    (hfind : op.errorShapes.find? (fun s => s.name == clsName) = some sh) :
    ∃ r, serializeErrorToResponse hooks (.modeled clsName msg) op rid = .ok r ∧
      (sh.errMeta.httpStatusCode = none → r.statusCode = 400) ∧
      (∀ c, sh.errMeta.httpStatusCode = some c → c ≠ 0 → r.statusCode = c) := by
  unfold serializeErrorToResponse
  simp only [hfind]
  refine ⟨_, rfl, ?_, ?_⟩
  · intro h; rw [hst]; simp [pyOrStatus, h]
  · intro c hc hne; rw [hst]; simp [pyOrStatus, hc, hne]

/-- Witness for C3 at a concrete shape lacking `httpStatusCode`. -/
theorem claim_C3_witness :
    ∃ r, serializeErrorToResponse queryHooks (.modeled "MyError".data "msg".data)
        fixOpNoStatus "REQUESTID".data = .ok r ∧
      ((⟨"MyError".data, ⟨none, none, none⟩⟩ : ErrShape).errMeta.httpStatusCode = none →
        r.statusCode = 400) ∧
      (∀ c, (⟨"MyError".data, ⟨none, none, none⟩⟩ : ErrShape).errMeta.httpStatusCode = some c →
        c ≠ 0 → r.statusCode = c) :=
  claim_C3_amended queryHooks (fun _ _ _ => rfl) fixOpNoStatus "MyError".data "msg".data
    ⟨"MyError".data, ⟨none, none, none⟩⟩ "REQUESTID".data rfl

/-- C5, counterexample.  The claim quantifies over *every* request parser,
but `BaseJSONRequestParser._parse_boolean` delegates to `_noop_parser`:
the text input `yes` is returned unchanged instead of failing with an
error, so the JSON-family parsers refute the claim. -/
theorem claim_C5_counterexample :
    jsonParseBoolean (.jstr "yes".data) = .jstr "yes".data := rfl

/-- C5, amended.  The base boolean text parser (used by the Query and EC2
parsers) accepts exactly the strings whose lowercasing is `true` or
`false`, returning the corresponding boolean, and raises `ValueError` on
every other text; the JSON-family override instead returns any node
unchanged. -/
theorem claim_C5_amended (V : QueryVariant) (f : Nat) (nm : Str) (s0 : Ser) (s : Str)
    (hloc : s0.location = none) :
    (pyLower s = "true".data →
      parseShape V (f + 1) (.sboolean nm s0) (.atom s) = .ok (some (.vbool true))) ∧
    (pyLower s = "false".data →
      parseShape V (f + 1) (.sboolean nm s0) (.atom s) = .ok (some (.vbool false))) ∧
    (pyLower s ≠ "true".data → pyLower s ≠ "false".data →
      parseShape V (f + 1) (.sboolean nm s0) (.atom s) = .error (.valueError s)) ∧
    (∀ j : JValue, jsonParseBoolean j = j) := by
  refine ⟨?_, ?_, ?_, fun _ => rfl⟩
  · intro h; simp [parseShape, ser_sboolean, hloc, h]
  · intro h
    simp [parseShape, ser_sboolean, hloc, h]
  · intro h1 h2
    simp [parseShape, ser_sboolean, hloc, h1, h2]

/-- Witness for C5 at the mixed-case input `TRUE`. -/
theorem claim_C5_witness :
    parseShape queryVariant 1 (.sboolean "B".data serEmpty) (.atom "TRUE".data) =
      .ok (some (.vbool true)) :=
  (claim_C5_amended queryVariant 0 "B".data serEmpty "TRUE".data rfl).1 (by decide)

/-- The index loop at a bound of at least 3, with entries at indices 1 and
2 and a gap at 3: it collects exactly the first two entries, regardless of
what any higher index would deliver. -/
theorem loopCollect_stop3 (getAt : Nat → Except PyErr (Option Value)) (v1 v2 : Value)
    (h1 : getAt 1 = .ok (some v1)) (h2 : getAt 2 = .ok (some v2))
    (h3 : getAt 3 = .ok none) (f : Nat) (hf : 3 ≤ f) :
    loopCollect getAt f 1 = .ok [(1, v1), (2, v2)] := by
  obtain ⟨a, rfl⟩ : ∃ a, f = a + 3 := ⟨f - 3, by omega⟩
  simp [loopCollect, h1, h2, h3]

/-- The map loop at a bound of at least 3, with key/value entries at
indices 1 and 2 (distinct, hashable keys) and a gap at 3: it collects
exactly the two pairs. -/
theorem mapLoopCollect_stop3 (getK getV : Nat → Except PyErr (Option Value))
    (k1 w1 k2 w2 : Value)
    (hk1 : getK 1 = .ok (some k1)) (hv1 : getV 1 = .ok (some w1))
    (hk2 : getK 2 = .ok (some k2)) (hv2 : getV 2 = .ok (some w2))
    (hk3 : getK 3 = .ok none) (hv3 : getV 3 = .ok none)
    (hh1 : k1.isHashable = true) (hh2 : k2.isHashable = true)
    (hne : pyScalarEq k1 k2 = false) (f : Nat) (hf : 3 ≤ f) :
    mapLoopCollect getK getV f 1 [] = .ok [(k1, w1), (k2, w2)] := by
  obtain ⟨a, rfl⟩ : ∃ a, f = a + 3 := ⟨f - 3, by omega⟩
  simp [mapLoopCollect, hk1, hv1, hk2, hv2, hk3, hv3, pyMapInsert, hh1, hh2, hne]

/-- The loop bound is at least 10. -/
theorem ten_le_loopBound (n : List (Str × Str)) : 10 ≤ loopBound n := by
  unfold loopBound
  calc (10 : Nat) = 10 ^ 1 := by norm_num
  _ ≤ 10 ^ (maxKeyLen n + 1) := Nat.pow_le_pow_right (by norm_num) (by omega)

/-- C2.  For every list shape and every map shape (arbitrary member/key/
value shapes, names, and flattening), a wire node carrying entries at
indices 1, 2 and 4 but no entry at index 3 parses to a 2-element result:
enumeration stops at the first missing index even though index 4 is
present. -/
theorem claim_C2 (V : QueryVariant) (f : Nat) (n : List (Str × Str))
    (lname mapname : Str) (lser mser : Ser) (m keySh valSh : Shape)
    (hlloc : lser.location = none) (hmloc : mser.location = none)
    (v1 v2 v4 k1 w1 k2 w2 k4 w4 : Value) :
    ((∀ i v, (i, v) ∈ [(1, some v1), (2, some v2), (3, none), (4, some v4)] →
        processMember V f m
          ((if lser.flattened then [] else V.flattenedListPref) ++ natToChars i) n = .ok v) →
      parseShape V (f + 1) (.slist lname lser m) (.qdict n) = .ok (some (.vlist [v1, v2]))) ∧
    ((∀ i v, (i, v) ∈ [(1, some k1), (2, some k2), (3, none), (4, some k4)] →
        processMember V f keySh
          ((if mser.flattened then [] else "entry.".data) ++ natToChars i ++
            ('.' :: V.getSerializedName keySh.ser "key".data)) n = .ok v) →
      (∀ i v, (i, v) ∈ [(1, some w1), (2, some w2), (3, none), (4, some w4)] →
        processMember V f valSh
          ((if mser.flattened then [] else "entry.".data) ++ natToChars i ++
            ('.' :: V.getSerializedName valSh.ser "value".data)) n = .ok v) →
      k1.isHashable = true → k2.isHashable = true → pyScalarEq k1 k2 = false →
      parseShape V (f + 1) (.smap mapname mser keySh valSh) (.qdict n) =
        .ok (some (.vmap [(k1, w1), (k2, w2)]))) := by
  have hb : 3 ≤ loopBound n := le_trans (by norm_num) (ten_le_loopBound n)
  constructor
  · intro hidx
    have hcol := loopCollect_stop3
      (fun i => processMemberWith (parseShape V f) m
        ((if lser.flattened then [] else V.flattenedListPref) ++ natToChars i) n)
      v1 v2 (hidx 1 (some v1) (by simp)) (hidx 2 (some v2) (by simp))
      (hidx 3 none (by simp)) (loopBound n) hb
    simp only [parseShape, ser_slist, hlloc]
    rw [hcol]
    simp [sortByIndex, insertSorted]
  · intro hkidx hvidx hh1 hh2 hne
    have hcol := mapLoopCollect_stop3
      (fun i => processMemberWith (parseShape V f) keySh
        ((if mser.flattened then [] else "entry.".data) ++ natToChars i ++
          ('.' :: V.getSerializedName keySh.ser "key".data)) n)
      (fun i => processMemberWith (parseShape V f) valSh
        ((if mser.flattened then [] else "entry.".data) ++ natToChars i ++
          ('.' :: V.getSerializedName valSh.ser "value".data)) n)
      k1 w1 k2 w2 (hkidx 1 (some k1) (by simp)) (hvidx 1 (some w1) (by simp))
      (hkidx 2 (some k2) (by simp)) (hvidx 2 (some w2) (by simp))
      (hkidx 3 none (by simp)) (hvidx 3 none (by simp)) hh1 hh2 hne (loopBound n) hb
    simp only [parseShape, ser_smap, hmloc]
    rw [hcol]
    simp

/-- Witness for C2: a concrete non-flattened string list with wire keys
`member.{1,2,4}` and a concrete non-flattened map with wire keys
`entry.{1,2,4}.{key,value}` both parse to 2-element results. -/
theorem claim_C2_witness :
    parseShape queryVariant 2 (.slist "L".data serEmpty (.sstring "S".data serEmpty))
      (.qdict [("member.1".data, "a".data), ("member.2".data, "b".data),
        ("member.4".data, "d".data)]) =
      .ok (some (.vlist [.vstr "a".data, .vstr "b".data])) ∧
    parseShape queryVariant 2
      (.smap "M".data serEmpty (.sstring "K".data serEmpty) (.sstring "V".data serEmpty))
      (.qdict [("entry.1.key".data, "k1".data), ("entry.1.value".data, "w1".data),
        ("entry.2.key".data, "k2".data), ("entry.2.value".data, "w2".data),
        ("entry.4.key".data, "k4".data), ("entry.4.value".data, "w4".data)]) =
      .ok (some (.vmap [(.vstr "k1".data, .vstr "w1".data),
        (.vstr "k2".data, .vstr "w2".data)])) := by
  constructor
  · exact (claim_C2 queryVariant 1 _ "L".data "M".data serEmpty serEmpty
      (.sstring "S".data serEmpty) (.sstring "K".data serEmpty) (.sstring "V".data serEmpty)
      rfl rfl (.vstr "a".data) (.vstr "b".data) (.vstr "d".data)
      (.vstr "k".data) (.vstr "w".data) (.vstr "k".data) (.vstr "w".data)
      (.vstr "k".data) (.vstr "w".data)).1
      (by intro i v h; fin_cases h <;> rfl)
  · exact (claim_C2 queryVariant 1 _ "L".data "M".data serEmpty serEmpty
      (.sstring "S".data serEmpty) (.sstring "K".data serEmpty) (.sstring "V".data serEmpty)
      rfl rfl (.vstr "a".data) (.vstr "b".data) (.vstr "d".data)
      (.vstr "k1".data) (.vstr "w1".data) (.vstr "k2".data) (.vstr "w2".data)
      (.vstr "k4".data) (.vstr "w4".data)).2
      (by intro i v h; fin_cases h <;> rfl)
      (by intro i v h; fin_cases h <;> rfl)
      rfl rfl rfl

/-- A shape with a `location` entry never parses successfully. -/
theorem locationFail_ne_ok (loc : Str) (x : Option Value) :
    locationFail loc ≠ .ok x := by
  unfold locationFail
  split <;> simp

/-- Insertion never produces the empty list. -/
theorem insertSorted_ne_nil (x : Nat × Value) (l : List (Nat × Value)) :
    insertSorted x l ≠ [] := by
  cases l with
  | nil => simp [insertSorted]
  | cons y ys => simp only [insertSorted]; split <;> simp

/-- Sorting preserves emptiness. -/
theorem sortByIndex_eq_nil {l : List (Nat × Value)} (h : sortByIndex l = []) : l = [] := by
  cases l with
  | nil => rfl
  | cons x xs => exact absurd h (insertSorted_ne_nil x (sortByIndex xs))

/-- C10.  The Query/EC2 parser never produces an empty aggregate: for
every structure, list, or map shape and every node, the parse result is
never `some` of an empty dict / list / map — when nothing is extracted the
result is absent (`None`) instead. -/
theorem claim_C10 (V : QueryVariant) (f : Nat) (node : QVal) :
    (∀ nm ser members,
      parseShape V f (.sstructure nm ser members) node ≠ .ok (some (.vdict []))) ∧
    (∀ nm ser m, parseShape V f (.slist nm ser m) node ≠ .ok (some (.vlist []))) ∧
    (∀ nm ser k v, parseShape V f (.smap nm ser k v) node ≠ .ok (some (.vmap []))) := by
  cases f with
  | zero => refine ⟨?_, ?_, ?_⟩ <;> intros <;> simp [parseShape]
  | succ f =>
    refine ⟨?_, ?_, ?_⟩
    · intro nm ser members
      simp only [parseShape, ser_sstructure]
      split
      · rename_i x loc heqq
        exact locationFail_ne_ok loc (some (.vdict []))
      · cases node with
        | atom s => simp
        | qdict nd =>
          split
          · simp
          · split
            · simp
            · intro h
              simp only [Except.ok.injEq] at h
              split at h
              · simp at h
              · next hne2 =>
                simp only [Option.some.injEq, Value.vdict.injEq] at h
                simp [h] at hne2
    · intro nm ser m
      simp only [parseShape, ser_slist]
      split
      · rename_i x loc heqq
        exact locationFail_ne_ok loc (some (.vlist []))
      · cases node with
        | atom s => simp
        | qdict nd =>
          split
          · simp
          · split
            · simp
            · intro h
              simp only [Except.ok.injEq] at h
              split at h
              · simp at h
              · next hne2 =>
                simp only [Option.some.injEq, Value.vlist.injEq, List.map_eq_nil_iff] at h
                have := sortByIndex_eq_nil h
                simp [this] at hne2
    · intro nm ser k v
      simp only [parseShape, ser_smap]
      split
      · rename_i x loc heqq
        exact locationFail_ne_ok loc (some (.vmap []))
      · cases node with
        | atom s => simp
        | qdict nd =>
          split
          · simp
          · split
            · simp
            · intro h
              simp only [Except.ok.injEq] at h
              split at h
              · simp at h
              · next hne2 =>
                simp only [Option.some.injEq, Value.vmap.injEq] at h
                simp [h] at hne2

/-- Witness for C10: on the empty wire node, a concrete structure shape
parses to `None`, not to an empty dict. -/
theorem claim_C10_witness :
    parseShape queryVariant 2
      (.sstructure "S".data serEmpty [("A".data, .sstring "Str".data serEmpty)])
      (.qdict []) = .ok none ∧
    parseShape queryVariant 2
      (.sstructure "S".data serEmpty [("A".data, .sstring "Str".data serEmpty)])
      (.qdict []) ≠ .ok (some (.vdict [])) :=
  ⟨rfl, (claim_C10 queryVariant 2 (.qdict [])).1 "S".data serEmpty
    [("A".data, .sstring "Str".data serEmpty)]⟩

/-- A number of at least `e + 1` decimal digits renders to at least
`e + 1` characters (provided the iteration bound allows `e` steps). -/
theorem natToCharsGo_length_ge (e : Nat) :
    ∀ fuel n, 10 ^ e ≤ n → e < fuel → e + 1 ≤ (natToCharsGo fuel n).length := by
  induction e with
  | zero =>
    intro fuel n h hf
    cases fuel with
    | zero => omega
    | succ f =>
      simp only [natToCharsGo]
      split
      · simp
      · simp
  | succ e ih =>
    intro fuel n h hf
    cases fuel with
    | zero => omega
    | succ f =>
      have h10 : ¬n < 10 := by
        have : (10 : Nat) ≤ 10 ^ (e + 1) := by
          calc (10 : Nat) = 10 ^ 1 := by norm_num
          _ ≤ 10 ^ (e + 1) := Nat.pow_le_pow_right (by norm_num) (by omega)
        omega
      simp only [natToCharsGo, if_neg h10, List.length_append, List.length_cons,
        List.length_nil]
      have hdiv : 10 ^ e ≤ n / 10 := by
        rw [Nat.le_div_iff_mul_le (by norm_num)]
        calc 10 ^ e * 10 = 10 ^ (e + 1) := by ring
        _ ≤ n := h
      have := ih f (n / 10) hdiv (by omega)
      omega

/-- A number of at least `e + 1` decimal digits renders to at least
`e + 1` characters. -/
theorem natToChars_length_ge (e n : Nat) (h : 10 ^ e ≤ n) :
    e + 1 ≤ (natToChars n).length := by
  have he : e < 10 ^ e := Nat.lt_pow_self (by norm_num) e
  exact natToCharsGo_length_ge e (n + 1) n h (by omega)

/-- Every wire key is at most `maxKeyLen` long. -/
theorem length_le_maxKeyLen {n : List (Str × Str)} {kv : Str × Str} (h : kv ∈ n) :
    kv.1.length ≤ maxKeyLen n := by
  induction n with
  | nil => cases h
  | cons x rest ih =>
    rcases List.mem_cons.mp h with h' | h'
    · subst h'; exact le_max_left _ _
    · exact le_trans (ih h') (le_max_right _ _)

/-- The last-write-wins fold keeps its accumulator when no key matches. -/
theorem pyGet_foldl_acc {α : Type} (node : List (Str × α)) (k : Str) (acc : Option α)
    (h : ∀ kv ∈ node, kv.1 ≠ k) :
    node.foldl (fun acc kv => if kv.1 = k then some kv.2 else acc) acc = acc := by
  induction node generalizing acc with
  | nil => rfl
  | cons x rest ih =>
    simp only [List.foldl_cons]
    rw [if_neg (h x (by simp))]
    exact ih _ (fun kv hkv => h kv (by simp [hkv]))

/-- `pyGet` misses when no key matches. -/
theorem pyGet_eq_none {α : Type} (node : List (Str × α)) (k : Str)
    (h : ∀ kv ∈ node, kv.1 ≠ k) : pyGet node k = none :=
  pyGet_foldl_acc node k none h

/-- `_filter_node` returns `None` when no key starts with the probed
name. -/
theorem filterNode_eq_none (name : Str) (node : List (Str × Str))
    (h : ∀ kv ∈ node, name.isPrefixOf kv.1 = false) : filterNode name node = none := by
  have hnil : node.filterMap (fun kv =>
      if name.isPrefixOf kv.1 then some (kv.1.drop (name.length + 1), kv.2) else none) = [] := by
    rw [List.filterMap_eq_nil_iff]
    intro kv hkv
    rw [h kv hkv]
    simp
  unfold filterNode
  rw [hnil]
  rfl

/-- `_process_member` yields `None` when the probed key name is longer
than every wire key of the node (independent of the member shape). -/
theorem processMemberWith_none_of_short
    (parse : Shape → QVal → Except PyErr (Option Value)) (shape : Shape)
    (name : Str) (node : List (Str × Str))
    (h : ∀ kv ∈ node, kv.1.length < name.length) :
    processMemberWith parse shape name node = .ok none := by
  unfold processMemberWith
  cases hc : shape.isComplex
  · simp only [hc, Bool.false_eq_true, if_false]
    rw [pyGet_eq_none]
    intro kv hkv he
    have := h kv hkv
    rw [he] at this
    omega
  · simp only [hc, if_true]
    rw [filterNode_eq_none]
    intro kv hkv
    cases hp : name.isPrefixOf kv.1
    · rfl
    · have hle := (List.isPrefixOf_iff_prefix.mp hp).length_le
      have := h kv hkv
      omega

/-- The index loop gives the same result for any two iteration bounds that
both reach a gap index (an index where the probe yields `None`): the loop
has stopped by then either way. -/
theorem loopCollect_eq_of_gap (getAt : Nat → Except PyErr (Option Value)) (g : Nat)
    (hg : getAt g = .ok none) :
    ∀ f1 f2 i, i ≤ g → g < i + f1 → g < i + f2 →
      loopCollect getAt f1 i = loopCollect getAt f2 i := by
  intro f1
  induction f1 with
  | zero => intro f2 i hi h1 h2; omega
  | succ f1 ih =>
    intro f2 i hi h1 h2
    cases f2 with
    | zero => omega
    | succ f2 =>
      simp only [loopCollect]
      cases hAt : getAt i with
      | error e => rfl
      | ok o =>
        cases o with
        | none => rfl
        | some v =>
          have hig : i ≠ g := by
            intro he
            rw [he, hg] at hAt
            cases hAt
          rw [ih f2 (i + 1) (by omega) (by omega) (by omega)]

/-- Prepending the same prefix to both lists preserves `isPrefixOf`. -/
theorem isPrefixOf_append_same (p a b : Str) :
    (p ++ a).isPrefixOf (p ++ b) = a.isPrefixOf b := by
  induction p with
  | nil => rfl
  | cons c p ih => simp [List.isPrefixOf, ih]

/-- `pyGet` after prefixing every key equals `pyGet` with the bare key. -/
theorem pyGet_prefixKeys (p k : Str) (n : List (Str × Str)) :
    pyGet (prefixKeys p n) (p ++ k) = pyGet n k := by
  unfold pyGet prefixKeys
  rw [List.foldl_map]
  congr 1
  funext acc kv
  simp only []
  by_cases hk : kv.1 = k
  · subst hk; simp
  · rw [if_neg hk, if_neg (fun hc => hk ((List.append_right_inj p).mp hc))]

/-- `_filter_node` after prefixing every key equals `_filter_node` with
the bare name: the prefix cancels in both the `startswith` test and the
stripped remainder. -/
theorem filterNode_prefixKeys (p k : Str) (n : List (Str × Str)) :
    filterNode (p ++ k) (prefixKeys p n) = filterNode k n := by
  unfold filterNode prefixKeys
  rw [List.filterMap_map]
  have hfm : ∀ kv : Str × Str,
      ((fun kv : Str × Str =>
          if (p ++ k).isPrefixOf kv.1 then
            some (kv.1.drop ((p ++ k).length + 1), kv.2) else none) ∘
        fun kv : Str × Str => (p ++ kv.1, kv.2)) kv =
      (fun kv : Str × Str =>
        if k.isPrefixOf kv.1 then some (kv.1.drop (k.length + 1), kv.2) else none) kv := by
    intro kv
    simp only [Function.comp_apply, isPrefixOf_append_same]
    cases hp : k.isPrefixOf kv.1
    · simp [hp]
    · simp only [hp, if_true]
      have hdrop : (p ++ kv.1).drop ((p ++ k).length + 1) = kv.1.drop (k.length + 1) := by
        rw [List.length_append, Nat.add_assoc, List.drop_append]
      rw [hdrop]
  rw [List.filterMap_congr (fun kv _ => hfm kv)]

/-- `_process_member` is invariant under prefixing the probed name and all
wire keys by the same string. -/
theorem processMemberWith_prefixKeys
    (parse : Shape → QVal → Except PyErr (Option Value)) (shape : Shape)
    (p k : Str) (n : List (Str × Str)) :
    processMemberWith parse shape (p ++ k) (prefixKeys p n) =
      processMemberWith parse shape k n := by
  unfold processMemberWith
  cases hc : shape.isComplex
  · simp only [hc, Bool.false_eq_true, if_false, pyGet_prefixKeys]
  · simp only [hc, if_true, filterNode_prefixKeys]

/-- Prefixing keys cannot shrink the maximal key length. -/
theorem maxKeyLen_le_prefixKeys (p : Str) (n : List (Str × Str)) :
    maxKeyLen n ≤ maxKeyLen (prefixKeys p n) := by
  induction n with
  | nil => simp [prefixKeys]
  | cons x rest ih =>
    simp only [prefixKeys, List.map_cons, maxKeyLen, List.foldr_cons] at ih ⊢
    have : x.1.length ≤ (p ++ x.1).length := by simp [List.length_append]
    omega

/-- The probe at index `loopBound n` always yields `None`: its decimal
rendering alone is longer than every wire key. -/
theorem processMemberWith_gap
    (parse : Shape → QVal → Except PyErr (Option Value)) (shape : Shape)
    (n : List (Str × Str)) :
    processMemberWith parse shape (natToChars (loopBound n)) n = .ok none := by
  apply processMemberWith_none_of_short
  intro kv hkv
  have h1 : kv.1.length ≤ maxKeyLen n := length_le_maxKeyLen hkv
  have h2 : maxKeyLen n + 2 ≤ (natToChars (loopBound n)).length :=
    natToChars_length_ge (maxKeyLen n + 1) (loopBound n) (le_refl _)
  omega

/-- `setFlattened` leaves `location` unchanged. -/
theorem setFlattened_location (s : Ser) (b : Bool) :
    (s.setFlattened b).location = s.location := rfl

/-- `setFlattened` sets `flattened`. -/
theorem setFlattened_flattened (s : Ser) (b : Bool) :
    (s.setFlattened b).flattened = b := rfl

/-- C4.  For the Query protocol, for every list shape (arbitrary member
shape and serialization) and every wire node, parsing the flattened
encoding (keys `<n>...`) and parsing the non-flattened encoding of the
same logical list (the same keys with the `member.` infix prepended)
yield identical results. -/
theorem claim_C4 (m : Shape) (lname : Str) (ser0 : Ser) (f : Nat)
    (n : List (Str × Str)) :
    parseShape queryVariant (f + 1) (.slist lname (ser0.setFlattened true) m) (.qdict n) =
    parseShape queryVariant (f + 1) (.slist lname (ser0.setFlattened false) m)
      (.qdict (prefixKeys "member.".data n)) := by
  simp only [parseShape, ser_slist, setFlattened_location, setFlattened_flattened]
  cases hl : ser0.location with
  | some loc => rfl
  | none =>
    simp only [Bool.false_eq_true, if_true, if_false, List.nil_append,
      show queryVariant.flattenedListPref = "member.".data from rfl,
      processMemberWith_prefixKeys]
    have hgap := processMemberWith_gap (parseShape queryVariant f) m n
    have hb1 : 1 ≤ loopBound n := le_trans (by norm_num) (ten_le_loopBound n)
    have hb2 : loopBound n ≤ loopBound (prefixKeys "member.".data n) := by
      unfold loopBound
      exact Nat.pow_le_pow_right (by norm_num)
        (by have := maxKeyLen_le_prefixKeys "member.".data n; omega)
    have hcc := loopCollect_eq_of_gap
      (fun i => processMemberWith (parseShape queryVariant f) m (natToChars i) n)
      (loopBound n) hgap (loopBound n) (loopBound (prefixKeys "member.".data n)) 1
      hb1 (by omega) (by omega)
    rw [hcc]

/-- The 501 message is never empty. -/
theorem notImplementedMessage_isEmpty (op : OperationModel) :
    (notImplementedMessage op).isEmpty = false := rfl

/-- C1, counterexample.  A concrete parseable request naming an operation
the parser recognizes, invoked on a skeleton with no dispatch-table entry
for it: `invoke` does not return a 501 error response — the
`NotImplementedError` is raised before the `try:` block and propagates
unhandled. -/
theorem claim_C1_counterexample :
    fixSkeletonNoHandler.parser fixReq =
      .ok (fixOp, some (.vdict [("Name".data, .vstr "hello world".data)])) ∧
    fixSkeletonNoHandler.invoke fixCtx = .error (.notImplementedError
      "no entry in dispatch table for ServiceModel(testsvc).TestOp".data) :=
  ⟨rfl, rfl⟩

/-- C1, amended.  For every Query-protocol skeleton and parseable request:
(a) an operation absent from the dispatch table makes `invoke` raise an
unhandled `NotImplementedError` naming the service and operation (a crash,
not a response); (b) the protocol-correct 501 contract holds instead for a
*registered* handler that raises `NotImplementedError`: `invoke` returns
status 501 with a body whose decoded error code is exactly
`InternalFailure` and whose message contains the operation name and the
service name, produced via `serializer.serialize_error`. -/
theorem claim_C1_amended (service : ServiceModel) (table : List (Str × HandlerFn))
    (rid : Str) (context : RequestContext) (operation : OperationModel)
    (inst : Option Value) (sk : Skeleton)
    (hsk : sk = ⟨service, table, queryParserParse queryVariant service,
      querySerializerModel rid⟩)
    (hparse : queryParserParse queryVariant service context.request = .ok (operation, inst)) :
    (pyGet table operation.name = none →
      sk.invoke context = .error (.notImplementedError
        ("no entry in dispatch table for ".data ++ serviceModelRepr service ++
          ('.' :: operation.name)))) ∧
    (∀ handler msg, pyGet table operation.name = some handler →
      handler context inst = .error (.notImplementedError msg) →
      ∃ r, sk.invoke context = .ok r ∧ r.statusCode = 501 ∧
        xmlErrorCode r.body = some "InternalFailure".data ∧
        xmlErrorMessage r.body = some (notImplementedMessage operation) ∧
        (∃ a b, notImplementedMessage operation = a ++ operation.name ++ b) ∧
        (∃ a b, notImplementedMessage operation = a ++ operation.serviceName ++ b)) := by
  subst hsk
  constructor
  · intro hnone
    unfold Skeleton.invoke
    simp only [hparse, hnone]
  · intro handler msg hsome hh
    unfold Skeleton.invoke
    simp only [hparse, hsome, hh]
    refine ⟨_, rfl, rfl, rfl, rfl, ?_, ?_⟩
    · refine ⟨"API action \x27".data,
        "\x27 for service \x27".data ++ operation.serviceName ++
          "\x27 not yet implemented".data, ?_⟩
      simp [notImplementedMessage, List.append_assoc]
    · refine ⟨"API action \x27".data ++ operation.name ++ "\x27 for service \x27".data,
        "\x27 not yet implemented".data, ?_⟩
      simp [notImplementedMessage, List.append_assoc]

/-- Witness for C1 at the concrete fixture skeleton whose `TestOp` handler
raises `NotImplementedError`. -/
theorem claim_C1_witness :
    ∃ r, fixSkeletonStubHandler.invoke fixCtx = .ok r ∧ r.statusCode = 501 ∧
      xmlErrorCode r.body = some "InternalFailure".data ∧
      xmlErrorMessage r.body = some (notImplementedMessage fixOp) ∧
      (∃ a b, notImplementedMessage fixOp = a ++ fixOp.name ++ b) ∧
      (∃ a b, notImplementedMessage fixOp = a ++ fixOp.serviceName ++ b) :=
  (claim_C1_amended fixService [("TestOp".data, fixNotImplHandler)] "REQUESTID".data
    fixCtx fixOp (some (.vdict [("Name".data, .vstr "hello world".data)]))
    fixSkeletonStubHandler rfl rfl).2 fixNotImplHandler [] rfl rfl

end LocalStack
